import Mathlib

/-!
Verification of the error identity and dispatch registry of the fail library.

The Lean definitions below are a shallow embedding of the Go sources:
pure functions become Lean functions, the mutable registries become explicit
state passing, Go panics become the error side of Except, and hook firing is
made observable through explicit event lists.  Machine integers that can be
negative (severity level, sequence number) are embedded as Int; values that
are provably non-negative in the source (edit distances, list lengths) use
Nat.  Strings are treated as their character sequences; the repository only
ever allocates ASCII identifiers, where Go byte indexing and character
indexing agree.
-/

namespace Fail

/-! ## Identifier allocator (src/id.go) -/

/-- Domain reserved for internal error IDs (src/id.go, reservedDomain). -/
def reservedDomain : String := "FAIL"

/-- Trusted, deterministically generated error identifier (src/id.go, ErrorID). -/
structure ErrorID where
  name : String
  domain : String
  level : Int
  isStatic : Bool
  number : Int
  isRegistered : Bool
deriving Repr, DecidableEq

/-- Zero padding used by the %04d format verb of Go: pad the digit string with
leading zeros to the requested width. -/
def zeroPad (w : Nat) (s : String) : String :=
  if w ≤ s.length then s else String.mk (List.replicate (w - s.length) '0') ++ s

/-- The %04d rendering of a Go int: minimum width four, zero padded, the sign
counting toward the width. -/
def go04d (n : Int) : String :=
  if n < 0 then "-" ++ zeroPad 3 (toString n.natAbs) else zeroPad 4 (toString n.natAbs)

/-- Rendered error ID, for example 0_AUTH_0042_S (src/id.go, ErrorID.String). -/
def ErrorID.String (id : ErrorID) : String :=
  let typeChar := if id.isStatic then "S" else "D"
  toString id.level ++ "_" ++ id.domain ++ "_" ++ go04d id.number ++ "_" ++ typeChar

/-- IsTrusted accessor: true only for IDs minted through the allocator
(src/registry.go call sites; the accessor body is the isRegistered flag of
src/id.go, named trusted in the neighbouring snapshot of the same file). -/
def ErrorID.IsTrusted (id : ErrorID) : Bool := id.isRegistered

/-- IsStatic accessor of src/id.go. -/
def ErrorID.IsStatic (id : ErrorID) : Bool := id.isStatic

/-- toLower of src/id.go: simple ASCII lowercasing, byte by byte. -/
def toLower (s : String) : String :=
  String.mk (s.data.map (fun c =>
    if 'A' ≤ c ∧ c ≤ 'Z' then Char.ofNat (c.toNat + 32) else c))

/-- hasPrefix of src/id.go: name starts with domain, case-insensitively. -/
def hasPrefix (name domain : String) : Bool :=
  if name.length < domain.length then false
  else toLower (String.mk (name.data.take domain.length)) = toLower domain

/-- minInt of src/id.go: minimum of three ints via pairwise comparisons. -/
def minInt (a b c : Nat) : Nat :=
  if a < b then (if a < c then a else c) else (if b < c then b else c)

/-- Inner column loop of the rolling two-row Levenshtein computation of
src/id.go: given the character c1 of the first string for this row, the
remaining characters of the second string, the tail of the previous row, the
diagonal value prev of the previous column and the value just computed to the
left, produce the remaining entries of the current row. -/
def levRowAux (c1 : Char) : List Char → List Nat → Nat → Nat → List Nat
  | [], _, _, _ => []
  | _ :: _, [], _, _ => []
  | c2 :: cs, pj :: rest, diag, left =>
    let cost := if c1 = c2 then 0 else 1
    let cur := minInt (pj + 1) (left + 1) (diag + cost)
    cur :: levRowAux c1 cs rest pj cur

/-- One full row of the rolling computation: curr[0] = i, then the column
loop over the second string (src/id.go, body of the outer for loop). -/
def levRow (c1 : Char) (s2 : List Char) (i : Nat) (prev : List Nat) : List Nat :=
  match prev with
  | [] => [i]
  | p0 :: rest => i :: levRowAux c1 s2 rest p0 i

/-- Outer row loop of the rolling computation over the first string
(src/id.go, for i := 1; i <= m). -/
def levLoop (s2 : List Char) : List Char → Nat → List Nat → List Nat
  | [], _, prev => prev
  | c1 :: cs, i, prev => levLoop s2 cs (i + 1) (levRow c1 s2 i prev)

/-- levenshteinDistance of src/id.go: rolling two-row dynamic program, with
the early returns for empty inputs; the result is entry n of the final row. -/
def levenshteinDistance (s1 s2 : String) : Nat :=
  let m := s1.data.length
  let n := s2.data.length
  if m = 0 then n
  else if n = 0 then m
  else (levLoop s2.data s1.data 1 (List.range (n + 1))).getD n 0

/-- Modelled from the spec: the classic full-matrix Levenshtein
dynamic-programming table (spec section 4.1, precondition 4: the distance "is
computed with the classic O(n times m) dynamic-programming table; either full
matrix or rolling two-row optimization is acceptable").  Entry (i, j) is the
edit distance between the first i characters of s1 and the first j characters
of s2. -/
def levTable (s1 s2 : List Char) : Nat → Nat → Nat
  | 0, j => j
  | i + 1, 0 => i + 1
  | i + 1, j + 1 =>
    minInt (levTable s1 s2 i (j + 1) + 1) (levTable s1 s2 (i + 1) j + 1)
      (levTable s1 s2 i j + (if s1.getD i 'a' = s2.getD j 'a' then 0 else 1))
termination_by i j => (i, j)

/-- Node of the per-group sorted number list (src/id.go, numberNode). -/
structure NumberNode where
  number : Int
  name : String
  id : String
deriving Repr, DecidableEq

/-- The distinct panic sites of the allocator, as a tagged result
(src/id.go, the panic calls inside ID and internalID). -/
inductive IDPanic where
  | runtimeMisuse
  | reservedDomainUsed
  | prefixMismatch
  | duplicateName
  | tooSimilar
  | numberCollision
  | gap
deriving Repr, DecidableEq

/-- State of an ID registry (src/id.go, IDRegistry).  The two Go maps become
association lists with unique keys; the mutex disappears because state
passing is explicit. -/
structure IDRegistry where
  registeredIDs : List (String × ErrorID)
  numberIndex : List (String × List NumberNode)
  allowRuntimePanics : Option Bool
  allowRuntimeRegistration : Bool
deriving Repr, DecidableEq

/-- Initial state of the global ID registry (src/id.go, globalIDRegistry). -/
def emptyIDRegistry : IDRegistry :=
  { registeredIDs := [], numberIndex := [], allowRuntimePanics := none,
    allowRuntimeRegistration := false }

/-- Group key for a domain and kind (src/id.go, fmt.Sprintf of domain and
the %v rendering of the bool). -/
def groupKey (domain : String) (static : Bool) : String :=
  domain ++ ":" ++ (if static then "true" else "false")

/-- The walk over the sorted per-group number list of src/id.go (the for loop
of IDRegistry.ID over numList): checks collisions and gaps and finds the
insertion point.  Arguments after the list mirror the loop variables: the
element index, prevNum, foundInsertion and insertAfter (index and node).
Returns insertAfter and foundInsertion as left by the loop. -/
def idWalk (number : Int) :
    List NumberNode → Nat → Int → Bool → Option (Nat × NumberNode) →
    Except IDPanic (Option (Nat × NumberNode) × Bool)
  | [], _, _, foundInsertion, insertAfter => .ok (insertAfter, foundInsertion)
  | node :: rest, idx, prevNum, foundInsertion, insertAfter =>
    if node.number = number then .error .numberCollision
    else
      let expected := prevNum + 1
      if node.number ≠ expected ∧
          ¬(foundInsertion = false ∧ expected ≤ number ∧ number < node.number) then
        .error .gap
      else
        let fi := if foundInsertion = false ∧ number < node.number then true
                  else foundInsertion
        let ia := if foundInsertion = false ∧ number < node.number then insertAfter
                  else if node.number < number then some (idx, node)
                  else insertAfter
        idWalk number rest (idx + 1) node.number fi ia

/-- Insertion into the number list (src/id.go: PushFront when insertAfter is
nil, InsertAfter otherwise). -/
def insertNode (nums : List NumberNode) (ia : Option (Nat × NumberNode))
    (n : NumberNode) : List NumberNode :=
  match ia with
  | none => n :: nums
  | some (i, _) => nums.take (i + 1) ++ n :: nums.drop (i + 1)

/-- Replace or add the binding of a group key in the number index. -/
def setGroup (idx : List (String × List NumberNode)) (k : String)
    (v : List NumberNode) : List (String × List NumberNode) :=
  match idx with
  | [] => [(k, v)]
  | (k0, v0) :: rest => if k0 = k then (k, v) :: rest else (k0, v0) :: setGroup rest k v

/-- Sentinel returned when ID is called at runtime without panics enabled
(src/unnamed/part_008: internalID(9, 16, true, "FailRuntimeIDInvalid")). -/
def RuntimeIDInvalid : ErrorID :=
  { name := "FailRuntimeIDInvalid", domain := "FAIL", level := 9, isStatic := true,
    number := 16, isRegistered := true }

/-- The body shared by ID and internalID after the reserved-domain and
runtime guards: name prefix, duplicate and similarity validations, then the
numbering walk and the insertion (src/id.go, validations 1 to 3 and the
numbering section, duplicated verbatim between ID and internalID). -/
def allocCore (r : IDRegistry) (level : Int) (domain : String) (number : Int)
    (static : Bool) (name : String) : Except IDPanic (IDRegistry × ErrorID) :=
  if ¬ hasPrefix name domain then .error .prefixMismatch
  else if (r.registeredIDs.lookup name).isSome then .error .duplicateName
  else if r.registeredIDs.any (fun p => levenshteinDistance name p.1 ≤ 3) then
    .error .tooSimilar
  else
    let key := groupKey domain static
    let numList := (r.numberIndex.lookup key).getD []
    match idWalk number numList 0 (-1) false none with
    | .error p => .error p
    | .ok (insertAfter, foundInsertion) =>
      let endGap : Bool :=
        if foundInsertion = false then
          let expected : Int := match insertAfter with
            | none => 0
            | some (_, node) => node.number + 1
          number ≠ expected
        else false
      if endGap then .error .gap
      else
        let id : ErrorID :=
          { name := name, domain := domain, level := level, isStatic := static,
            number := number, isRegistered := true }
        let newNode : NumberNode := { number := number, name := name, id := id.String }
        let newList := insertNode numList insertAfter newNode
        .ok ({ r with
                registeredIDs := (name, id) :: r.registeredIDs,
                numberIndex := setGroup r.numberIndex key newList }, id)

/-- IDRegistry.ID of src/id.go.  beforeMain stands for calledBeforeMain()
(true during package initialization) and globalARP for the package-level
allowRuntimePanics flag; a panic becomes the error side of Except. -/
def IDRegistry.ID (r : IDRegistry) (beforeMain globalARP : Bool) (level : Int)
    (domain : String) (number : Int) (static : Bool) (name : String) :
    Except IDPanic (IDRegistry × ErrorID) :=
  if beforeMain = false ∧ r.allowRuntimeRegistration = false then
    if r.allowRuntimePanics = some true ∨ globalARP = true then .error .runtimeMisuse
    else .ok (r, RuntimeIDInvalid)
  else if domain = reservedDomain then .error .reservedDomainUsed
  else allocCore r level domain number static name

/-- IDRegistry.internalID of src/id.go: fixes the reserved domain, skips the
reserved-domain and runtime guards, and otherwise runs the same validations
and numbering walk. -/
def IDRegistry.internalID (r : IDRegistry) (level number : Int) (static : Bool)
    (name : String) : Except IDPanic (IDRegistry × ErrorID) :=
  allocCore r level reservedDomain number static name

/-- One allocation request submitted to the allocator. -/
structure AllocReq where
  level : Int
  domain : String
  number : Int
  static : Bool
  name : String
deriving Repr, DecidableEq

/-- Run a sequence of allocations through ID during initialization (the
var-block usage pattern of src/id.go); the whole sequence fails as soon as
one allocation panics. -/
def allocAll (r : IDRegistry) : List AllocReq → Except IDPanic IDRegistry
  | [] => .ok r
  | a :: rest =>
    match r.ID true false a.level a.domain a.number a.static a.name with
    | .error p => .error p
    | .ok (r', _) => allocAll r' rest

/-- Modelled from the spec: a list of sequence numbers is a contiguous run
starting at 0 (spec section 3: groups "must contain sequence numbers forming
a contiguous run starting at 0 - no gaps, no duplicates"). -/
def contiguousFromZero (l : List Int) : Bool :=
  l = (List.range l.length).map Int.ofNat

/-- The panic carried by a failed computation, as an Option (the dual of
Except.toOption). -/
def errOption {ε α : Type} : Except ε α → Option ε
  | .error e => some e
  | .ok _ => none

/-! ## Hook engine (src/hooks.go) -/

/-- executeHooks of src/hooks.go.  The runner describes the observable
behaviour of invoking one listener: the world state it leaves behind and,
when it panics, the recovered panic payload.  The per-listener deferred
recover of the source catches the panic, logs it, and continues with the
next listener; the returned list collects the logged panic payloads in
order. -/
def executeHooks {T σ : Type} (hooks : List T) (runner : T → σ → σ × Option String)
    (s : σ) : σ × List String :=
  match hooks with
  | [] => (s, [])
  | fn :: rest =>
    let step := runner fn s
    let next := executeHooks rest runner step.1
    match step.2 with
    | none => next
    | some msg => (next.1, msg :: next.2)

/-! ## Error type, registry, mappers (src/core.go, src/registry.go,
src/mappers.go, src/builder.go, src/helpers.go) -/

/-- Hook invocations observable from the registry operations.  Each
constructor corresponds to one run* call of src/hooks.go; mapperTried
records one Map call of a registered mapper during dispatch. -/
inductive HookEvent where
  | create (id : String)
  | wrap
  | fromSuccess
  | fromFail
  | form (id : String)
  | mapperTried (name : String)
deriving Repr, DecidableEq

/-- Whether an event is a firing of the creation hook. -/
def HookEvent.isCreate : HookEvent → Bool
  | .create _ => true
  | _ => false

mutual
/-- The core error type (src/core.go, Error).  Field order and names follow
the Go struct; the registry back-pointer becomes the numeric identity of the
owning registry. -/
inductive FailErr where
  | mk (ID : ErrorID) (Message : String) (InternalMessage : String)
      (Cause : Option GoErr) (IsSystem : Bool) (Args : List String) (Locale : String)
      (Meta : List (String × String)) (isRegistered : Bool) (trusted : Bool)
      (registry : Option Nat) (createdByFrom : Bool) (isStatic : Bool) : FailErr

/-- A Go error value at the library boundary: either the canonical type or a
foreign error, possibly wrapping another error. -/
inductive GoErr where
  | fail (e : FailErr) : GoErr
  | foreign (msg : String) (wrapped : Option GoErr) : GoErr
end

def FailErr.ID : FailErr → ErrorID
  | .mk i _ _ _ _ _ _ _ _ _ _ _ _ => i

def FailErr.Message : FailErr → String
  | .mk _ m _ _ _ _ _ _ _ _ _ _ _ => m

def FailErr.InternalMessage : FailErr → String
  | .mk _ _ im _ _ _ _ _ _ _ _ _ _ => im

def FailErr.Cause : FailErr → Option GoErr
  | .mk _ _ _ c _ _ _ _ _ _ _ _ _ => c

def FailErr.IsSystem : FailErr → Bool
  | .mk _ _ _ _ s _ _ _ _ _ _ _ _ => s

def FailErr.Args : FailErr → List String
  | .mk _ _ _ _ _ a _ _ _ _ _ _ _ => a

def FailErr.Locale : FailErr → String
  | .mk _ _ _ _ _ _ l _ _ _ _ _ _ => l

def FailErr.Meta : FailErr → List (String × String)
  | .mk _ _ _ _ _ _ _ m _ _ _ _ _ => m

def FailErr.isRegistered : FailErr → Bool
  | .mk _ _ _ _ _ _ _ _ r _ _ _ _ => r

def FailErr.trusted : FailErr → Bool
  | .mk _ _ _ _ _ _ _ _ _ t _ _ _ => t

def FailErr.registry : FailErr → Option Nat
  | .mk _ _ _ _ _ _ _ _ _ _ r _ _ => r

def FailErr.createdByFrom : FailErr → Bool
  | .mk _ _ _ _ _ _ _ _ _ _ _ c _ => c

def FailErr.isStatic : FailErr → Bool
  | .mk _ _ _ _ _ _ _ _ _ _ _ _ s => s

def FailErr.setMessage (msg : String) : FailErr → FailErr
  | .mk i _ im c s a l m ir t r cf st => .mk i msg im c s a l m ir t r cf st

def FailErr.setArgs (args : List String) : FailErr → FailErr
  | .mk i msg im c s _ l m ir t r cf st => .mk i msg im c s args l m ir t r cf st

def FailErr.setCause (cause : Option GoErr) : FailErr → FailErr
  | .mk i msg im _ s a l m ir t r cf st => .mk i msg im cause s a l m ir t r cf st

/-- The three field assignments performed by From on a freshly mapped error
(src/registry.go: createdByFrom, registry, trusted). -/
def FailErr.setFromFields (rid : Nat) : FailErr → FailErr
  | .mk i msg im c s a l m ir _ _ _ st => .mk i msg im c s a l m ir true (some rid) true st

/-- errors.As specialized to the canonical error type, as used by From, Is,
As and AsFail: the error itself if canonical, else the unwrap chain. -/
def goAs : GoErr → Option FailErr
  | .fail e => some e
  | .foreign _ w =>
    match w with
    | some inner => goAs inner
    | none => none

/-- Is of src/helpers.go: errors.As then comparison of the rendered ID
strings. -/
def Is (err : GoErr) (id : ErrorID) : Bool :=
  match goAs err with
  | some e => e.ID.String = id.String
  | none => false

/-- Mapper of src/mappers.go: a named, prioritized conversion strategy; the
Go (fe, ok) pair becomes an Option. -/
structure Mapper where
  Name : String
  Priority : Int
  Map : GoErr → Option FailErr

/-- MapperList.Add of src/mappers.go: walk front to back and insert before
the first element of strictly lower priority, else append. -/
def MapperList.Add (ml : List Mapper) (m : Mapper) : List Mapper :=
  match ml with
  | [] => [m]
  | e :: rest =>
    if e.Priority < m.Priority then m :: e :: rest
    else e :: MapperList.Add rest m

/-- MapperList.Map of src/mappers.go: walk front to back, return the first
mapper whose Map reports a match together with its name.  The second
component records every mapper consulted, in order. -/
def MapperList.Map (ml : List Mapper) (err : GoErr) :
    Option (FailErr × String) × List HookEvent :=
  match ml with
  | [] => (none, [])
  | m :: rest =>
    match m.Map err with
    | some fe => (some (fe, m.Name), [.mapperTried m.Name])
    | none =>
      let next := MapperList.Map rest err
      (next.1, .mapperTried m.Name :: next.2)

/-- Modelled from the spec: the mapper chain is ordered by non-increasing
priority (spec section 4.3, descending-priority order). -/
def prioritySorted (l : List Mapper) : Prop :=
  l.Pairwise (fun a b => b.Priority ≤ a.Priority)

/-- The mappers of one given priority, in list order; used to state that
equal-priority mappers keep their insertion order. -/
def filterPriority (p : Int) (l : List Mapper) : List Mapper :=
  l.filter (fun m => m.Priority == p)

/-- ErrorDefinition of src/core.go. -/
structure ErrorDefinition where
  ID : ErrorID
  DefaultMessage : String
  IsSystem : Bool
  Meta : List (String × String)
  DefaultArgs : List String

/-- Panic sites of the registry layer, as tagged results
(src/registry.go and src/core.go).  divergence marks the state the Go code
can only reach when the package initialization of its own sentinels was
skipped; its New would then recurse forever. -/
inductive RegPanic where
  | untrustedRegister
  | untrustedNew
  | staticMutation
  | divergence
deriving Repr, DecidableEq

/-- Registry of src/registry.go.  rid is the identity of the Go pointer;
maps become association lists; the mapper list is optional because the Go
field can be nil. -/
structure Registry where
  rid : Nat
  errors : List (String × FailErr)
  definitions : List (ErrorID × ErrorDefinition)
  genericMappers : Option (List Mapper)
  allowInternalLogs : Bool
  allowStaticMutations : Bool
  panicOnStaticMutations : Bool

/-- NewRegistry of src/registry.go: fresh maps and a non-nil empty mapper
list; all policy flags default to false, as for the global registry. -/
def NewRegistry (rid : Nat) : Registry :=
  { rid := rid, errors := [], definitions := [], genericMappers := some [],
    allowInternalLogs := false, allowStaticMutations := false,
    panicOnStaticMutations := false }

/-- The sentinel ID minted at package initialization by
internalID(0, 0, false, "FailUnregisteredError") (src/registry.go). -/
def UnregisteredError : ErrorID :=
  { name := "FailUnregisteredError", domain := "FAIL", level := 0, isStatic := false,
    number := 0, isRegistered := true }

/-- The sentinel ID minted by internalID(0, 11, false,
"FailNotMatchedInAnyMapper") (src/registry.go). -/
def NotMatchedInAnyMapper : ErrorID :=
  { name := "FailNotMatchedInAnyMapper", domain := "FAIL", level := 0, isStatic := false,
    number := 11, isRegistered := true }

/-- The sentinel ID minted by internalID(0, 12, false,
"FailNoMapperRegistered") (src/registry.go). -/
def NoMapperRegistered : ErrorID :=
  { name := "FailNoMapperRegistered", domain := "FAIL", level := 0, isStatic := false,
    number := 12, isRegistered := true }

/-- Registry.Register of src/registry.go: panic on an untrusted ID, first
registration for a rendered ID wins, later writes are ignored. -/
def Registry.Register (r : Registry) (err : FailErr) : Except RegPanic Registry :=
  if err.ID.IsTrusted = false then .error .untrustedRegister
  else if (r.errors.lookup err.ID.String).isSome then .ok r
  else .ok { r with errors := r.errors ++ [(err.ID.String, err)] }

/-- The Error literal built by Registry.RegisterMany for one definition
(src/registry.go: ID, Message, IsSystem, Meta; every other field zero). -/
def templateOfDef (d : ErrorDefinition) : FailErr :=
  .mk d.ID d.DefaultMessage "" none d.IsSystem [] "" d.Meta false false none false false

/-- Registry.RegisterMany of src/registry.go: register each definition in
order through Register.  A panic aborts the loop; the first component is the
registry state already reached when the panic fired. -/
def Registry.RegisterMany (r : Registry) : List ErrorDefinition → Registry × Option RegPanic
  | [] => (r, none)
  | d :: rest =>
    match r.Register (templateOfDef d) with
    | .error p => (r, some p)
    | .ok r' => Registry.RegisterMany r' rest

/-- Package-level Register of src/core.go: like RegisterMany for one
definition but also copying the static kind of the ID into the template. -/
def Register (r : Registry) (d : ErrorDefinition) : Except RegPanic Registry :=
  Registry.Register r
    (.mk d.ID d.DefaultMessage "" none d.IsSystem [] "" d.Meta false false none false
      d.ID.IsStatic)

/-- checkStatic of src/core.go.  reg is the registry the receiver belongs to
(the global one when the back-pointer is nil) and arp the package-level
allowRuntimePanics flag.  Returns true when the mutation must be dropped. -/
def FailErr.checkStatic (e : FailErr) (reg : Registry) (arp : Bool) :
    Except RegPanic Bool :=
  if e.isStatic = false then .ok false
  else if reg.panicOnStaticMutations = true ∧ arp = true then .error .staticMutation
  else .ok true

/-- Error.Msg of src/builder.go: drop the write on a static error, else set
the message; either way the same instance is returned for chaining. -/
def FailErr.Msg (e : FailErr) (reg : Registry) (arp : Bool) (msg : String) :
    Except RegPanic FailErr :=
  match e.checkStatic reg arp with
  | .error p => .error p
  | .ok true => .ok e
  | .ok false => .ok (e.setMessage msg)

/-- Error.WithArgs of src/builder.go. -/
def FailErr.WithArgs (e : FailErr) (reg : Registry) (arp : Bool) (args : List String) :
    Except RegPanic FailErr :=
  match e.checkStatic reg arp with
  | .error p => .error p
  | .ok true => .ok e
  | .ok false => .ok (e.setArgs args)

/-- Error.With of src/builder.go: set the cause and fire the wrap hook. -/
def FailErr.With (e : FailErr) (reg : Registry) (arp : Bool) (cause : GoErr) :
    Except RegPanic (FailErr × List HookEvent) :=
  match e.checkStatic reg arp with
  | .error p => .error p
  | .ok true => .ok (e, [])
  | .ok false => .ok (e.setCause (some cause), [.wrap])

/-- Registry.New of src/registry.go: panic on an untrusted ID; on a miss
fall back to the unregistered sentinel of the global registry (glob) with
the requested ID as format argument; on a hit build the instance from the
stored definition, copy non-empty default metadata, and fire the creation
hook.  The source does not copy the static kind of the definition into the
instance. -/
def Registry.New (glob : Registry) (arp : Bool) (r : Registry) (id : ErrorID) :
    Except RegPanic (FailErr × List HookEvent) :=
  if id.IsTrusted = false then .error .untrustedNew
  else
    match r.errors.lookup id.String with
    | some defn =>
      let base : FailErr :=
        .mk defn.ID defn.Message "" none defn.IsSystem [] "" [] false true (some r.rid)
          false false
      let err := if 0 < defn.Meta.length then
          match base with
          | .mk i msg im c s a l _ ir t rr cf st => FailErr.mk i msg im c s a l defn.Meta ir t rr cf st
        else base
      .ok (err, [.create defn.ID.String])
    | none =>
      match glob.errors.lookup UnregisteredError.String with
      | none => .error .divergence
      | some defn =>
        let base : FailErr :=
          .mk defn.ID defn.Message "" none defn.IsSystem [] "" [] false true
            (some glob.rid) false false
        let err := if 0 < defn.Meta.length then
            match base with
            | .mk i msg im c s a l _ ir t rr cf st =>
              FailErr.mk i msg im c s a l defn.Meta ir t rr cf st
          else base
        match err.WithArgs glob arp [id.String] with
        | .error p => .error p
        | .ok err' => .ok (err', [.create defn.ID.String])

/-- Package-level New of src/core.go: global.New(id). -/
def New (glob : Registry) (arp : Bool) (id : ErrorID) :
    Except RegPanic (FailErr × List HookEvent) :=
  Registry.New glob arp glob id

/-- Registry.Form of src/core.go: store the definition, register the
template with the static kind of the ID, fire the form hook on the global
registry, then return a fresh instance via New. -/
def Registry.Form (glob : Registry) (arp : Bool) (r : Registry) (id : ErrorID)
    (defaultMsg : String) (isSystem : Bool) (meta : List (String × String))
    (defaultArgs : List String) :
    Except RegPanic (Registry × FailErr × List HookEvent) :=
  let d : ErrorDefinition :=
    { ID := id, DefaultMessage := defaultMsg, IsSystem := isSystem, Meta := meta,
      DefaultArgs := defaultArgs }
  let r1 := { r with definitions := (id, d) :: r.definitions.filter (fun p => p.1 ≠ id) }
  let tmpl : FailErr :=
    .mk id defaultMsg "" none isSystem defaultArgs "" meta false false (some r.rid) false
      id.IsStatic
  match r1.Register tmpl with
  | .error p => .error p
  | .ok r2 =>
    match Registry.New glob arp r2 id with
    | .error p => .error p
    | .ok (inst, evs) => .ok (r2, inst, .form id.String :: evs)

/-- MapToFail used by Registry.From of src/registry.go: the dispatch of the
mapper chain, dropping the mapper name of MapperList.Map (the Map method of
the same component in src/mappers.go). -/
def MapperList.MapToFail (ml : List Mapper) (err : GoErr) :
    Option FailErr × List HookEvent :=
  let res := MapperList.Map ml err
  (res.1.map (fun p => p.1), res.2)

/-- Registry.From of src/registry.go: nil in, nil out; an error that is
already canonical is returned as the identical instance (with the
from-success hook unless it was produced by From before); otherwise the
mapper chain runs, a match is stamped with createdByFrom, registry and
trusted and fires the from-success hook, and a miss wraps the foreign error
in the not-matched (or, with a nil mapper list, no-mapper) sentinel and
fires the from-fail hook. -/
def Registry.From (glob : Registry) (arp : Bool) (r : Registry) (err : Option GoErr) :
    Except RegPanic (Option FailErr × List HookEvent) :=
  match err with
  | none => .ok (none, [])
  | some err =>
    match goAs err with
    | some e =>
      if e.createdByFrom = true then .ok (some e, [])
      else .ok (some e, [.fromSuccess])
    | none =>
      match r.genericMappers with
      | some mappers =>
        let mres := MapperList.MapToFail mappers err
        match mres.1 with
        | some fe =>
          let fe' := fe.setFromFields r.rid
          .ok (some fe', mres.2 ++ [.fromSuccess])
        | none =>
          match Fail.New glob arp NotMatchedInAnyMapper with
          | .error p => .error p
          | .ok (ne, nevs) =>
            match ne.With glob arp err with
            | .error p => .error p
            | .ok (res, wevs) =>
              .ok (some res, mres.2 ++ nevs ++ wevs ++ [.fromFail])
      | none =>
        match Fail.New glob arp NoMapperRegistered with
        | .error p => .error p
        | .ok (ne, nevs) =>
          match ne.With glob arp err with
          | .error p => .error p
          | .ok (res, wevs) =>
            .ok (some res, nevs ++ wevs ++ [.fromFail])

/-- Registry.From of src/mappers.go, the snapshot of the same method kept in
that file: the canonical case returns the identical instance without firing
any hook, even for a different registry; a mapped match is returned without
the createdByFrom stamping; the miss and nil-mapper cases mirror the other
snapshot (with the from-fail hook fired before the sentinel is built on the
miss path). -/
def Registry.From' (glob : Registry) (arp : Bool) (r : Registry) (err : Option GoErr) :
    Except RegPanic (Option FailErr × List HookEvent) :=
  match err with
  | none => .ok (none, [])
  | some err =>
    match goAs err with
    | some e => .ok (some e, [])
    | none =>
      match r.genericMappers with
      | some mappers =>
        let mres := MapperList.Map mappers err
        match mres.1 with
        | some (fe, _) => .ok (some fe, mres.2 ++ [.fromSuccess])
        | none =>
          match Fail.New glob arp NotMatchedInAnyMapper with
          | .error p => .error p
          | .ok (ne, nevs) =>
            match ne.With glob arp err with
            | .error p => .error p
            | .ok (res, wevs) =>
              .ok (some res, mres.2 ++ [.fromFail] ++ nevs ++ wevs)
      | none =>
        match Fail.New glob arp NoMapperRegistered with
        | .error p => .error p
        | .ok (ne, nevs) =>
          match ne.With glob arp err with
          | .error p => .error p
          | .ok (res, wevs) =>
            .ok (some res, nevs ++ wevs ++ [.fromFail])

/-- AsFail of src/core.go: nil in, nil out; an already canonical error is
returned as is; anything else goes through From on the global registry. -/
def AsFail (glob : Registry) (arp : Bool) (err : Option GoErr) :
    Except RegPanic (Option FailErr × List HookEvent) :=
  match err with
  | none => .ok (none, [])
  | some e =>
    match goAs e with
    | some fe => .ok (some fe, [])
    | none => Registry.From glob arp glob (some e)

/-! ## Levenshtein: the rolling two-row program equals the classic table -/


theorem minInt_eq_min (a b c : Nat) : minInt a b c = min a (min b c) := by
  unfold minInt
  split <;> split <;> omega

theorem levTable_zero_left (s1 s2 : List Char) (j : Nat) :
    levTable s1 s2 0 j = j := by
  cases j <;> simp [levTable]

theorem levTable_zero_right (s1 s2 : List Char) (i : Nat) :
    levTable s1 s2 i 0 = i := by
  cases i <;> simp [levTable]

theorem levTable_succ_succ (s1 s2 : List Char) (i j : Nat) :
    levTable s1 s2 (i + 1) (j + 1) =
      minInt (levTable s1 s2 i (j + 1) + 1) (levTable s1 s2 (i + 1) j + 1)
        (levTable s1 s2 i j + (if s1.getD i 'a' = s2.getD j 'a' then 0 else 1)) := by
  rw [levTable]

theorem getD_of_drop_cons {l : List Char} {j : Nat} {c : Char} {cs : List Char}
    (h : l.drop j = c :: cs) : l.getD j 'a' = c := by
  have h0 := List.getElem?_drop l j 0
  rw [h] at h0
  simp only [Nat.add_zero, List.getElem?_cons_zero] at h0
  rw [List.getD_eq_getElem?_getD, ← h0]
  rfl

theorem drop_succ_of_drop_cons {l : List Char} {j : Nat} {c : Char} {cs : List Char}
    (h : l.drop j = c :: cs) : l.drop (j + 1) = cs := by
  have hd := List.drop_drop 1 j l
  rw [h] at hd
  simpa using hd.symm

theorem levRowAux_spec (s1 s2 : List Char) (i : Nat) :
    ∀ (cs : List Char) (j : Nat), s2.drop j = cs →
      levRowAux (s1.getD i 'a') cs
        ((List.range' (j + 1) cs.length).map (levTable s1 s2 i))
        (levTable s1 s2 i j) (levTable s1 s2 (i + 1) j)
      = (List.range' (j + 1) cs.length).map (levTable s1 s2 (i + 1)) := by
  intro cs
  induction cs with
  | nil => intro j _; simp [levRowAux]
  | cons c2 cs' ih =>
    intro j hdrop
    have hc2 : s2.getD j 'a' = c2 := getD_of_drop_cons hdrop
    have hdrop' : s2.drop (j + 1) = cs' := drop_succ_of_drop_cons hdrop
    have hr : List.range' (j + 1) (c2 :: cs').length =
        (j + 1) :: List.range' (j + 1 + 1) cs'.length := by
      simpa using List.range'_succ (j + 1) cs'.length 1
    rw [hr]
    simp only [List.map_cons, levRowAux]
    have hcur : minInt (levTable s1 s2 i (j + 1) + 1) (levTable s1 s2 (i + 1) j + 1)
        (levTable s1 s2 i j + (if s1.getD i 'a' = c2 then 0 else 1)) =
        levTable s1 s2 (i + 1) (j + 1) := by
      rw [levTable_succ_succ, hc2]
    rw [hcur]
    rw [ih (j + 1) hdrop']

theorem levRow_spec (s1 s2 : List Char) (i : Nat) :
    levRow (s1.getD i 'a') s2 (i + 1)
      ((List.range (s2.length + 1)).map (levTable s1 s2 i))
    = (List.range (s2.length + 1)).map (levTable s1 s2 (i + 1)) := by
  have hr : List.range (s2.length + 1) = 0 :: List.range' 1 s2.length := by
    rw [List.range_eq_range']
    simpa using List.range'_succ 0 s2.length 1
  rw [hr]
  simp only [List.map_cons, levRow]
  rw [levTable_zero_right s1 s2 (i + 1)]
  have ha := levRowAux_spec s1 s2 i s2 0 (by simp)
  rw [levTable_zero_right s1 s2 (i + 1)] at ha
  simp only [Nat.zero_add] at ha
  rw [ha]

theorem levLoop_spec (s1 s2 : List Char) :
    ∀ (cs : List Char) (k : Nat), s1.drop k = cs →
      levLoop s2 cs (k + 1) ((List.range (s2.length + 1)).map (levTable s1 s2 k))
      = (List.range (s2.length + 1)).map (levTable s1 s2 (k + cs.length)) := by
  intro cs
  induction cs with
  | nil => intro k _; simp [levLoop]
  | cons c1 cs' ih =>
    intro k hdrop
    have hc1 : s1.getD k 'a' = c1 := getD_of_drop_cons hdrop
    have hdrop' : s1.drop (k + 1) = cs' := drop_succ_of_drop_cons hdrop
    simp only [levLoop]
    rw [← hc1, levRow_spec s1 s2 k]
    rw [ih (k + 1) hdrop']
    have harg : k + 1 + cs'.length = k + (cs'.length + 1) := by omega
    rw [harg]
    simp

theorem levenshteinDistance_eq_levTable (s1 s2 : String) :
    levenshteinDistance s1 s2 = levTable s1.data s2.data s1.data.length s2.data.length := by
  unfold levenshteinDistance
  by_cases hm : s1.data.length = 0
  · simp [hm, levTable_zero_left]
  · by_cases hn : s2.data.length = 0
    · simp only [hm, hn, if_false, if_true]
      exact (levTable_zero_right _ _ _).symm
    · simp only [hm, hn, if_false]
      have hid : (List.range (s2.data.length + 1)).map (levTable s1.data s2.data 0) =
          List.range (s2.data.length + 1) := by
        have hz : ∀ x ∈ List.range (s2.data.length + 1),
            levTable s1.data s2.data 0 x = x := by
          intro x _; exact levTable_zero_left _ _ x
        simpa using List.map_congr_left hz
      rw [← hid]
      have hl := levLoop_spec s1.data s2.data s1.data 0 (by simp)
      simp only [Nat.zero_add] at hl
      rw [hl]
      rw [List.getD_eq_getElem?_getD, List.getElem?_map,
        List.getElem?_range (by omega : s2.data.length < s2.data.length + 1)]
      simp


set_option maxRecDepth 100000

/-! ## Helper lemmas about the allocator walk -/

theorem idWalk_error_cases (number : Int) (nums : List NumberNode) :
    ∀ (idx : Nat) (prevNum : Int) (fi : Bool) (ia : Option (Nat × NumberNode))
      (p : IDPanic),
      idWalk number nums idx prevNum fi ia = .error p →
      p = .numberCollision ∨ p = .gap := by
  induction nums with
  | nil =>
    intro idx prevNum fi ia p h
    simp [idWalk] at h
  | cons node rest ih =>
    intro idx prevNum fi ia p h
    simp only [idWalk] at h
    by_cases hc : node.number = number
    · simp [hc] at h
      exact Or.inl h.symm
    · rw [if_neg hc] at h
      by_cases hg : node.number ≠ prevNum + 1 ∧
          ¬(fi = false ∧ prevNum + 1 ≤ number ∧ number < node.number)
      · rw [if_pos hg] at h
        cases h
        exact Or.inr rfl
      · rw [if_neg hg] at h
        exact ih _ _ _ _ p h

theorem allocCore_not_tooSimilar_of_checks (r : IDRegistry) (level : Int)
    (domain : String) (number : Int) (static : Bool) (name : String)
    (hany : r.registeredIDs.any (fun p => levenshteinDistance name p.1 ≤ 3) = false) :
    allocCore r level domain number static name ≠ .error .tooSimilar := by
  unfold allocCore
  by_cases hp : hasPrefix name domain
  · rw [if_neg (by simp [hp])]
    by_cases hd : (r.registeredIDs.lookup name).isSome = true
    · simp [hd]
    · simp only [Bool.not_eq_true] at hd
      rw [if_neg (by simp [hd]), if_neg (by simp [hany])]
      cases hw : idWalk number ((r.numberIndex.lookup (groupKey domain static)).getD [])
          0 (-1) false none with
      | error p =>
        intro hcontra
        simp only [hw] at hcontra
        cases hcontra
        rcases idWalk_error_cases number _ _ _ _ _ _ hw with h | h <;> cases h
      | ok pr =>
        simp only [hw]
        split <;> ( try split) <;> simp
  · simp [hp]

/-- C7: the allocator rejects any name whose Levenshtein distance to some
previously allocated name is at most 3 and lets a name pass the similarity
check when every distance exceeds 3; the rolling two-row program of the
source computes exactly the classic full-matrix Levenshtein table; and on
the concrete examples, UserNotFounds after UserNotFound is rejected at
distance 1 while UserAccountLocked after UserNotFound passes. -/
theorem C7_similarity_and_distance :
    (∀ s1 s2 : String,
      levenshteinDistance s1 s2 = levTable s1.data s2.data s1.data.length s2.data.length)
    ∧ (∀ (r : IDRegistry) (level : Int) (domain : String) (number : Int)
        (static : Bool) (name : String),
        domain ≠ reservedDomain →
        hasPrefix name domain = true →
        (r.registeredIDs.lookup name).isSome = false →
        ((r.registeredIDs.any (fun p => levenshteinDistance name p.1 ≤ 3) = true →
            r.ID true false level domain number static name = .error .tooSimilar)
          ∧ (r.registeredIDs.any (fun p => levenshteinDistance name p.1 ≤ 3) = false →
            r.ID true false level domain number static name ≠ .error .tooSimilar)))
    ∧ levenshteinDistance "UserNotFound" "UserNotFounds" = 1
    ∧ errOption (allocAll emptyIDRegistry
        [⟨0, "USER", 0, true, "UserNotFound"⟩, ⟨0, "USER", 1, true, "UserNotFounds"⟩])
        = some .tooSimilar
    ∧ 3 < levenshteinDistance "UserNotFound" "UserAccountLocked"
    ∧ (allocAll emptyIDRegistry
        [⟨0, "USER", 0, true, "UserNotFound"⟩,
         ⟨0, "USER", 1, true, "UserAccountLocked"⟩]).isOk = true := by
  refine ⟨levenshteinDistance_eq_levTable, ?_, by decide, by decide, by decide, by decide⟩
  intro r level domain number static name hdom hp hl
  have hguard : ¬(true = false ∧ r.allowRuntimeRegistration = false) := by simp
  constructor
  · intro hany
    simp only [IDRegistry.ID, if_neg hguard, if_neg hdom]
    unfold allocCore
    simp [hp, hl, hany]
  · intro hany
    simp only [IDRegistry.ID, if_neg hguard, if_neg hdom]
    exact allocCore_not_tooSimilar_of_checks r level domain number static name hany

/-- Witness for C7: the hypotheses hold at the fresh empty registry, where
no existing name is similar, so the first allocation of UserNotFound is not
rejected for similarity. -/
theorem C7_similarity_and_distance_witness :
    emptyIDRegistry.ID true false 0 "USER" 0 true "UserNotFound" ≠ .error .tooSimilar :=
  (C7_similarity_and_distance.2.1 emptyIDRegistry 0 "USER" 0 true "UserNotFound"
    (by decide) (by decide) (by decide)).2 (by decide)

/-- C1: the claimed contiguity invariant is broken by the code on negative
numbers: starting from the empty registry, allocating number 0 and then
number -1 in the AUTH static group both succeed through ID, leaving the
group as [-1, 0], which is not a contiguous run starting at 0 (the
validateNoGaps check of the same file rejects that very state).  The
gap-rejection half of the claim does hold on the documented example: after
0, 1, 2 the number 4 is rejected as a gap and 3 is accepted. -/
theorem C1_contiguity_broken_by_negative_number :
    ((allocAll emptyIDRegistry
        [⟨0, "AUTH", 0, true, "AuthUserNotFound"⟩,
         ⟨0, "AUTH", -1, true, "AuthTokenExpired"⟩]).toOption.map
      (fun r => ((r.numberIndex.lookup (groupKey "AUTH" true)).getD []).map
        (fun n => n.number)))
      = some [-1, 0]
    ∧ contiguousFromZero [-1, 0] = false
    ∧ errOption (allocAll emptyIDRegistry
        [⟨0, "AUTH", 0, true, "AuthUserNotFound"⟩,
         ⟨0, "AUTH", 1, true, "AuthTokenExpired"⟩,
         ⟨0, "AUTH", 2, true, "AuthSessionRevoked"⟩,
         ⟨0, "AUTH", 4, true, "AuthRateLimited"⟩])
        = some .gap
    ∧ ((allocAll emptyIDRegistry
        [⟨0, "AUTH", 0, true, "AuthUserNotFound"⟩,
         ⟨0, "AUTH", 1, true, "AuthTokenExpired"⟩,
         ⟨0, "AUTH", 2, true, "AuthSessionRevoked"⟩,
         ⟨0, "AUTH", 3, true, "AuthRateLimited"⟩]).toOption.map
      (fun r => ((r.numberIndex.lookup (groupKey "AUTH" true)).getD []).map
        (fun n => n.number)))
      = some [0, 1, 2, 3]
    ∧ contiguousFromZero [0, 1, 2, 3] = true :=
  ⟨by decide, by decide, by decide, by decide, by decide⟩

/-! ## Hook engine: order and per-listener isolation -/

theorem executeHooks_fst_foldl (T σ : Type) (hooks : List T)
    (runner : T → σ → σ × Option String) (s : σ) :
    (executeHooks hooks runner s).1 = hooks.foldl (fun st fn => (runner fn st).1) s := by
  induction hooks generalizing s with
  | nil => simp [executeHooks]
  | cons fn rest ih =>
    simp only [executeHooks, List.foldl_cons]
    cases (runner fn s).2 <;> simp [ih]

theorem executeHooks_append (T σ : Type) (h1 h2 : List T)
    (runner : T → σ → σ × Option String) (s : σ) :
    executeHooks (h1 ++ h2) runner s =
      ((executeHooks h2 runner (executeHooks h1 runner s).1).1,
        (executeHooks h1 runner s).2
          ++ (executeHooks h2 runner (executeHooks h1 runner s).1).2) := by
  induction h1 generalizing s with
  | nil => simp [executeHooks]
  | cons fn rest ih =>
    simp only [List.cons_append, executeHooks]
    cases (runner fn s).2 <;> simp [ih]

/-- C3: the hook engine runs every listener in registration order even when
earlier listeners panic: the final state is the fold of all listener
effects, running a batch splits as running the two halves in order, for any
two listeners the second always runs on the state the first left behind, and
on the concrete pair where the first listener panics the second still
appends its mark, with the panic caught and logged rather than propagated. -/
theorem C3_hook_isolation :
    (∀ (T σ : Type) (hooks : List T) (runner : T → σ → σ × Option String) (s : σ),
      (executeHooks hooks runner s).1 = hooks.foldl (fun st fn => (runner fn st).1) s)
    ∧ (∀ (T σ : Type) (h1 h2 : List T) (runner : T → σ → σ × Option String) (s : σ),
      executeHooks (h1 ++ h2) runner s =
        ((executeHooks h2 runner (executeHooks h1 runner s).1).1,
          (executeHooks h1 runner s).2
            ++ (executeHooks h2 runner (executeHooks h1 runner s).1).2))
    ∧ (∀ (T σ : Type) (f g : T) (runner : T → σ → σ × Option String) (s : σ),
      (executeHooks [f, g] runner s).1 = (runner g (runner f s).1).1)
    ∧ executeHooks [(1, true), (2, false)]
        (fun p (s : List Nat) => (s ++ [p.1], if p.2 then some "boom" else none)) []
        = ([1, 2], ["boom"]) := by
  refine ⟨executeHooks_fst_foldl, executeHooks_append, ?_, rfl⟩
  intro T σ f g runner s
  simp only [executeHooks]
  cases (runner f s).2 <;> cases (runner g (runner f s).1).2 <;> simp

/-! ## Mapper chain: descending-priority stable insertion, first match -/

theorem filterPriority_cons (p : Int) (x : Mapper) (l : List Mapper) :
    filterPriority p (x :: l) =
      if x.Priority = p then x :: filterPriority p l else filterPriority p l := by
  by_cases h : x.Priority = p <;> simp [filterPriority, List.filter_cons, h]

theorem mem_mapperAdd {l : List Mapper} {m x : Mapper}
    (h : x ∈ MapperList.Add l m) : x ∈ l ∨ x = m := by
  induction l with
  | nil => simp [MapperList.Add] at h; exact Or.inr h
  | cons e rest ih =>
    simp only [MapperList.Add] at h
    by_cases hc : e.Priority < m.Priority
    · rw [if_pos hc, List.mem_cons] at h
      rcases h with h | h
      · exact Or.inr h
      · exact Or.inl h
    · rw [if_neg hc, List.mem_cons] at h
      rcases h with h | h
      · exact Or.inl (by simp [h])
      · rcases ih h with h' | h'
        · exact Or.inl (List.mem_cons_of_mem _ h')
        · exact Or.inr h'

theorem mapperAdd_sorted {l : List Mapper} (m : Mapper)
    (h : prioritySorted l) : prioritySorted (MapperList.Add l m) := by
  induction l with
  | nil => simp [MapperList.Add, prioritySorted]
  | cons e rest ih =>
    rw [prioritySorted, List.pairwise_cons] at h
    obtain ⟨hbound, hrest⟩ := h
    simp only [MapperList.Add]
    by_cases hc : e.Priority < m.Priority
    · rw [if_pos hc]
      rw [prioritySorted, List.pairwise_cons]
      refine ⟨?_, ?_⟩
      · intro x hx
        rw [List.mem_cons] at hx
        rcases hx with hx | hx
        · subst hx; omega
        · have := hbound x hx
          omega
      · rw [List.pairwise_cons]
        exact ⟨hbound, hrest⟩
    · rw [if_neg hc]
      rw [prioritySorted, List.pairwise_cons]
      refine ⟨?_, ih hrest⟩
      intro x hx
      rcases mem_mapperAdd hx with h' | h'
      · exact hbound x h'
      · subst h'
        omega

theorem mapperAdd_filter (p : Int) {l : List Mapper} (m : Mapper)
    (h : prioritySorted l) :
    filterPriority p (MapperList.Add l m) =
      filterPriority p l ++ (if m.Priority = p then [m] else []) := by
  induction l with
  | nil =>
    by_cases hm : m.Priority = p <;>
      simp [MapperList.Add, filterPriority, List.filter_cons, hm]
  | cons e rest ih =>
    rw [prioritySorted, List.pairwise_cons] at h
    obtain ⟨hbound, hrest⟩ := h
    simp only [MapperList.Add]
    by_cases hc : e.Priority < m.Priority
    · rw [if_pos hc]
      by_cases hm : m.Priority = p
      · have h1 : filterPriority p rest = [] := by
          rw [filterPriority, List.filter_eq_nil_iff]
          intro x hx
          have := hbound x hx
          simp only [beq_iff_eq]
          omega
        have hnone : filterPriority p (e :: rest) = [] := by
          rw [filterPriority_cons, if_neg (by omega : ¬ e.Priority = p), h1]
        rw [filterPriority_cons, if_pos hm, hnone, if_pos hm]
        simp
      · rw [filterPriority_cons, if_neg hm, if_neg hm]
        simp
    · rw [if_neg hc]
      rw [filterPriority_cons, filterPriority_cons, ih hrest]
      by_cases he : e.Priority = p <;> simp [he]

theorem foldAdd_sorted_stable (adds : List Mapper) :
    ∀ (l : List Mapper), prioritySorted l →
      prioritySorted (adds.foldl MapperList.Add l)
      ∧ ∀ p, filterPriority p (adds.foldl MapperList.Add l) =
          filterPriority p l ++ filterPriority p adds := by
  induction adds with
  | nil =>
    intro l hl
    exact ⟨hl, fun p => by simp [filterPriority]⟩
  | cons a adds ih =>
    intro l hl
    obtain ⟨hs, hf⟩ := ih (MapperList.Add l a) (mapperAdd_sorted a hl)
    rw [List.foldl_cons]
    refine ⟨hs, fun p => ?_⟩
    rw [hf p, mapperAdd_filter p a hl, filterPriority_cons]
    by_cases ha : a.Priority = p <;> simp [ha]

theorem mapFirstMatch (err : GoErr) (m : Mapper) (fe : FailErr) :
    ∀ (pre post : List Mapper),
      (∀ x ∈ pre, x.Map err = none) → m.Map err = some fe →
      (MapperList.Map (pre ++ m :: post) err).1 = some (fe, m.Name) := by
  intro pre
  induction pre with
  | nil =>
    intro post _ hm
    simp [MapperList.Map, hm]
  | cons x rest ih =>
    intro post hnone hm
    have hx : x.Map err = none := hnone x (by simp)
    simp only [List.cons_append, MapperList.Map, hx]
    exact ih post (fun y hy => hnone y (by simp [hy])) hm

/-- C6: after any sequence of Add calls starting from the empty chain, the
mapper list is ordered by non-increasing priority, the mappers of each
priority appear exactly in insertion order, dispatch returns the first
mapper that reports a match when walking front to back, and on the concrete
pair of mappers with priorities 100 and 50 that both match, the result of
the priority-100 mapper is returned whichever order they were added. -/
theorem C6_mapper_priority_order :
    (∀ adds : List Mapper,
      prioritySorted (adds.foldl MapperList.Add [])
      ∧ ∀ p, filterPriority p (adds.foldl MapperList.Add []) = filterPriority p adds)
    ∧ (∀ (err : GoErr) (m : Mapper) (fe : FailErr) (pre post : List Mapper),
      (∀ x ∈ pre, x.Map err = none) → m.Map err = some fe →
      (MapperList.Map (pre ++ m :: post) err).1 = some (fe, m.Name))
    ∧ (let eH : FailErr :=
        .mk UnregisteredError "high" "" none false [] "" [] false false none false false
       let eL : FailErr :=
        .mk UnregisteredError "low" "" none false [] "" [] false false none false false
       let mH : Mapper := ⟨"high", 100, fun _ => some eH⟩
       let mL : Mapper := ⟨"low", 50, fun _ => some eL⟩
       (MapperList.Map ([mL, mH].foldl MapperList.Add []) (.foreign "x" none)).1
           = some (eH, "high")
         ∧ (MapperList.Map ([mH, mL].foldl MapperList.Add []) (.foreign "x" none)).1
           = some (eH, "high")) := by
  refine ⟨?_, ?_, ⟨rfl, rfl⟩⟩
  · intro adds
    obtain ⟨hs, hf⟩ :=
      foldAdd_sorted_stable adds [] (by simp [prioritySorted])
    exact ⟨hs, fun p => by simpa [filterPriority] using hf p⟩
  · intro err m fe pre post h1 h2
    exact mapFirstMatch err m fe pre post h1 h2

/-- Witness for C6: a non-matching priority-50 mapper in front does not hide
the matching priority-100 mapper behind it. -/
theorem C6_mapper_priority_order_witness :
    (MapperList.Map
        ([⟨"none", 50, fun _ => none⟩]
          ++ (⟨"high", 100, fun _ => some (FailErr.mk UnregisteredError "high" "" none
                false [] "" [] false false none false false)⟩ : Mapper) :: [])
        (.foreign "x" none)).1
      = some (FailErr.mk UnregisteredError "high" "" none false [] "" [] false false
          none false false, "high") :=
  C6_mapper_priority_order.2.1 (.foreign "x" none) _ _ [⟨"none", 50, fun _ => none⟩] []
    (by
      intro x hx
      rw [List.mem_singleton] at hx
      subst hx
      rfl)
    rfl

/-! ## From: nil and identity short circuits -/

/-- C5: From applied to an error that is already the canonical type returns
the identical instance, creates nothing new, rewraps nothing, and never
fires the creation hook; this holds in both snapshots of the method (the
src/registry.go version fires only the from-success hook on an instance not
produced by From, and the src/mappers.go version fires no hook at all). -/
theorem C5_identity_short_circuit :
    (∀ (glob r : Registry) (arp : Bool) (e : FailErr),
      (Registry.From glob arp r (some (.fail e))).toOption.map
          (fun p => (p.1, p.2.filter HookEvent.isCreate))
        = some (some e, []))
    ∧ (∀ (glob r : Registry) (arp : Bool) (e : FailErr),
      Registry.From' glob arp r (some (.fail e)) = .ok (some e, [])) := by
  constructor
  · intro glob r arp e
    simp only [Registry.From, goAs]
    by_cases h : e.createdByFrom = true <;>
      simp [h, HookEvent.isCreate, Except.toOption]
  · intro glob r arp e
    simp [Registry.From', goAs]

/-- C10: a nil input short-circuits conversion entirely: From of both
snapshots and AsFail return nil having consulted no mapper and fired no
hook. -/
theorem C10_nil_from :
    (∀ (glob r : Registry) (arp : Bool),
      Registry.From glob arp r none = .ok (none, []))
    ∧ (∀ (glob r : Registry) (arp : Bool),
      Registry.From' glob arp r none = .ok (none, []))
    ∧ (∀ (glob : Registry) (arp : Bool),
      AsFail glob arp none = .ok (none, [])) :=
  ⟨fun _ _ _ => rfl, fun _ _ _ => rfl, fun _ _ => rfl⟩

/-! ## Registration: trust boundary, first write wins -/

/-- C2 counterexample: registering a template whose ID was not minted by the
allocator panics (a fatal abort, the error side of the embedding), it does
not return an ordinary error value; and RegisterMany stops at the first
failing item instead of collecting an aggregate: the valid first item is
registered, the panic fires on the second, and the valid third item is never
registered. -/
theorem C2_register_untrusted_panics_counterexample :
    (Registry.Register (NewRegistry 0)
        (.mk ⟨"Rogue", "X", 0, false, 0, false⟩ "boom" "" none false [] "" [] false
          false none false false)
      = .error .untrustedRegister)
    ∧ (let d1 : ErrorDefinition := ⟨UnregisteredError, "first", false, [], []⟩
       let dBad : ErrorDefinition := ⟨⟨"Rogue", "X", 0, false, 0, false⟩, "bad", false, [], []⟩
       let d2 : ErrorDefinition := ⟨NotMatchedInAnyMapper, "third", false, [], []⟩
       ((NewRegistry 0).RegisterMany [d1, dBad, d2]).2 = some .untrustedRegister
       ∧ (((NewRegistry 0).RegisterMany [d1, dBad, d2]).1.errors.lookup
            UnregisteredError.String).isSome = true
       ∧ (((NewRegistry 0).RegisterMany [d1, dBad, d2]).1.errors.lookup
            NotMatchedInAnyMapper.String).isSome = false) :=
  ⟨rfl, rfl, rfl, rfl⟩

/-- C2 amended: registering an untrusted ID always raises the fatal abort,
while RegisterMany over templates whose IDs are all allocator-minted
registers every item and never aborts. -/
theorem C2_register_untrusted_is_fatal :
    (∀ (r : Registry) (err : FailErr),
      err.ID.IsTrusted = false → r.Register err = .error .untrustedRegister)
    ∧ (∀ (r : Registry) (defs : List ErrorDefinition),
      (∀ d ∈ defs, d.ID.IsTrusted = true) → (r.RegisterMany defs).2 = none) := by
  constructor
  · intro r err h
    simp [Registry.Register, h]
  · intro r defs
    induction defs generalizing r with
    | nil => intro _; rfl
    | cons d rest ih =>
      intro h
      have hd : d.ID.IsTrusted = true := h d (by simp)
      have hD : (templateOfDef d).ID = d.ID := by simp [templateOfDef, FailErr.ID]
      have hreg : r.Register (templateOfDef d) =
          if (r.errors.lookup d.ID.String).isSome then .ok r
          else .ok { r with errors := r.errors ++ [(d.ID.String, templateOfDef d)] } := by
        unfold Registry.Register
        rw [hD, hd]
        simp
      rw [Registry.RegisterMany, hreg]
      by_cases hex : (r.errors.lookup d.ID.String).isSome
      · rw [if_pos hex]
        exact ih r (fun x hx => h x (by simp [hx]))
      · rw [if_neg hex]
        exact ih _ (fun x hx => h x (by simp [hx]))

/-- Witness for the amended C2. -/
theorem C2_register_untrusted_is_fatal_witness :
    Registry.Register (NewRegistry 7)
        (.mk ⟨"Rogue", "X", 0, false, 0, false⟩ "boom" "" none false [] "" [] false
          false none false false)
      = .error .untrustedRegister
    ∧ ((NewRegistry 7).RegisterMany [⟨UnregisteredError, "first", false, [], []⟩]).2
      = none :=
  ⟨C2_register_untrusted_is_fatal.1 (NewRegistry 7) _ rfl,
   C2_register_untrusted_is_fatal.2 (NewRegistry 7) _
     (by
       intro x hx
       rw [List.mem_singleton] at hx
       subst hx
       rfl)⟩

/-! ## Static instances and idempotent registration -/

/-- C4: the code violates static immutability for instances.  The static
STAT ID is exactly what the allocator mints; registering it stores a
template whose isStatic flag is true; but the instance built by New carries
isStatic = false, because Registry.New does not copy the flag, so Msg under
the default policy overwrites the message of the supposedly static instance
(its own test static_test.go expects the message to stay unchanged).  The
instance obtained through Form mutates the same way. -/
theorem C4_static_instance_mutation :
    ((emptyIDRegistry.ID true false 0 "STAT" 0 true "StatStaticError").toOption.map
        (fun p => p.2))
      = some ⟨"StatStaticError", "STAT", 0, true, 0, true⟩
    ∧ (let staticID : ErrorID := ⟨"StatStaticError", "STAT", 0, true, 0, true⟩
       let d : ErrorDefinition := ⟨staticID, "static message", false, [], []⟩
       let glob := NewRegistry 0
       ((Register (NewRegistry 1) d).toOption.bind
          (fun r1 => (r1.errors.lookup staticID.String).map FailErr.isStatic))
         = some true
       ∧ ((Register (NewRegistry 1) d).toOption.bind
          (fun r1 => (Registry.New glob false r1 staticID).toOption.map
            (fun p => (p.1.isStatic, p.1.Message))))
         = some (false, "static message")
       ∧ ((Register (NewRegistry 1) d).toOption.bind
          (fun r1 => (Registry.New glob false r1 staticID).toOption.bind
            (fun p => (p.1.Msg r1 false "new message").toOption.map FailErr.Message)))
         = some "new message"
       ∧ ((Registry.Form glob false (NewRegistry 1) staticID "static message" false []
            []).toOption.bind
          (fun t => (t.2.1.Msg t.1 false "new message").toOption.map FailErr.Message))
         = some "new message") :=
  ⟨by decide, rfl, rfl, rfl, rfl⟩

theorem lookup_append_single {α : Type} (k : String) (v : α) :
    ∀ l : List (String × α), l.lookup k = none → (l ++ [(k, v)]).lookup k = some v := by
  intro l
  induction l with
  | nil => intro _; simp [List.lookup]
  | cons a rest ih =>
    intro h
    obtain ⟨k0, v0⟩ := a
    simp only [List.lookup, List.cons_append] at h ⊢
    by_cases hk : k == k0
    · simp [hk] at h
    · simp only [hk] at h ⊢
      exact ih h

/-- C8: registration is idempotent with first-write-wins semantics: after a
first registration of a trusted ID, registering any second template that
renders to the same ID string leaves the registry unchanged, and New keeps
returning instances carrying the first default message. -/
theorem C8_first_write_wins (glob r : Registry) (arp : Bool) (e1 e2 : FailErr) :
    e1.ID.IsTrusted = true → e2.ID.IsTrusted = true →
    e2.ID.String = e1.ID.String →
    r.errors.lookup e1.ID.String = none →
    ∀ r1, r.Register e1 = .ok r1 →
      r1.Register e2 = .ok r1
      ∧ (Registry.New glob arp r1 e1.ID).toOption.map (fun p => p.1.Message)
          = some e1.Message := by
  intro h1 h2 h12 hnone r1 hr
  have hr1 : r1 = { r with errors := r.errors ++ [(e1.ID.String, e1)] } := by
    unfold Registry.Register at hr
    rw [h1] at hr
    simp only [Bool.true_eq_false, if_false, hnone, Option.isSome_none] at hr
    simp at hr
    exact hr.symm
  subst hr1
  have hlook : (r.errors ++ [(e1.ID.String, e1)]).lookup e1.ID.String = some e1 :=
    lookup_append_single _ _ _ hnone
  constructor
  · unfold Registry.Register
    rw [h2]
    simp only [Bool.true_eq_false, if_false]
    rw [h12, hlook]
    simp
  · unfold Registry.New
    rw [h1]
    simp only [Bool.true_eq_false, if_false]
    rw [hlook]
    by_cases hm : 0 < e1.Meta.length <;>
      simp [hm, FailErr.Message, Except.toOption]

/-- Witness for C8: both templates use the unregistered-error sentinel ID;
the second registration is a no-op and New returns the first message. -/
theorem C8_first_write_wins_witness :
    (let e1 : FailErr :=
      .mk UnregisteredError "first" "" none false [] "" [] false false none false false
     let e2 : FailErr :=
      .mk UnregisteredError "second" "" none false [] "" [] false false none false false
     let r1 : Registry :=
      { NewRegistry 1 with errors := [(UnregisteredError.String, e1)] }
     r1.Register e2 = .ok r1
     ∧ (Registry.New (NewRegistry 0) false r1 e1.ID).toOption.map (fun p => p.1.Message)
         = some e1.Message) := by
  exact C8_first_write_wins (NewRegistry 0) (NewRegistry 1) false
    (.mk UnregisteredError "first" "" none false [] "" [] false false none false false)
    (.mk UnregisteredError "second" "" none false [] "" [] false false none false false)
    rfl rfl rfl rfl _ rfl

/-! ## Severity and identity -/

/-- C9 counterexample: severity does affect identity.  Two allocator-minted
IDs that differ only in severity render to different strings, are distinct
under the Is comparison, and address distinct definition slots in a
registry. -/
theorem C9_severity_changes_identity_counterexample :
    (let idA : ErrorID := ⟨"AuthUserNotFound", "AUTH", 0, true, 0, true⟩
     let idB : ErrorID := ⟨"AuthUserNotFound", "AUTH", 1, true, 0, true⟩
     let instA : FailErr := .mk idA "m" "" none false [] "" [] false false none false false
     ((emptyIDRegistry.ID true false 0 "AUTH" 0 true "AuthUserNotFound").toOption.map
        (fun p => p.2)) = some idA
     ∧ ((emptyIDRegistry.ID true false 1 "AUTH" 0 true "AuthUserNotFound").toOption.map
        (fun p => p.2)) = some idB
     ∧ idA.String = "0_AUTH_0000_S"
     ∧ idB.String = "1_AUTH_0000_S"
     ∧ Is (.fail instA) idA = true
     ∧ Is (.fail instA) idB = false
     ∧ ((Register (NewRegistry 1) ⟨idA, "m", false, [], []⟩).toOption.map
          (fun r => ((r.errors.lookup idA.String).isSome,
            (r.errors.lookup idB.String).isSome))) = some (true, false)) :=
  ⟨by decide, by decide, rfl, rfl, by decide, by decide, by decide⟩

theorem insertNode_number_map (nums : List NumberNode) (ia : Option (Nat × NumberNode))
    (n1 n2 : NumberNode) (h : n1.number = n2.number) :
    (insertNode nums ia n1).map (fun n => n.number)
      = (insertNode nums ia n2).map (fun n => n.number) := by
  cases ia with
  | none => simp [insertNode, h]
  | some p =>
    obtain ⟨i, nd⟩ := p
    simp [insertNode, h]

theorem setGroup_map_congr (k : String) (v1 v2 : List NumberNode)
    (h : v1.map (fun n => n.number) = v2.map (fun n => n.number)) :
    ∀ idx : List (String × List NumberNode),
      (setGroup idx k v1).map (fun g => (g.1, g.2.map (fun n => n.number)))
        = (setGroup idx k v2).map (fun g => (g.1, g.2.map (fun n => n.number))) := by
  intro idx
  induction idx with
  | nil => simp [setGroup, h]
  | cons a rest ih =>
    obtain ⟨k0, v0⟩ := a
    by_cases hk : k0 = k <;> simp [setGroup, hk, h, ih]

/-- C9 amended: severity is descriptive for the allocator: whether an
allocation succeeds, which panic it raises, and the resulting name set and
per-group number sequences are all independent of the level argument; but
severity is part of the rendered string, so the Is comparison equates two
IDs exactly when their full rendered strings (severity included) match. -/
theorem C9_severity_informational_in_allocation :
    (∀ (r : IDRegistry) (bm garp : Bool) (l l' : Int) (domain : String) (number : Int)
      (static : Bool) (name : String),
      (r.ID bm garp l domain number static name).isOk
        = (r.ID bm garp l' domain number static name).isOk
      ∧ errOption (r.ID bm garp l domain number static name)
        = errOption (r.ID bm garp l' domain number static name)
      ∧ (r.ID bm garp l domain number static name).toOption.map
          (fun p => (p.1.registeredIDs.map Prod.fst,
            p.1.numberIndex.map (fun g => (g.1, g.2.map (fun n => n.number)))))
        = (r.ID bm garp l' domain number static name).toOption.map
          (fun p => (p.1.registeredIDs.map Prod.fst,
            p.1.numberIndex.map (fun g => (g.1, g.2.map (fun n => n.number))))))
    ∧ (∀ (err : GoErr) (id : ErrorID),
      Is err id = true ↔ (goAs err).map (fun e => e.ID.String) = some id.String) := by
  constructor
  · intro r bm garp l l' domain number static name
    unfold IDRegistry.ID
    by_cases hg : bm = false ∧ r.allowRuntimeRegistration = false
    · simp [if_pos hg]
    · simp only [if_neg hg]
      by_cases hd : domain = reservedDomain
      · simp [if_pos hd]
      · simp only [if_neg hd]
        unfold allocCore
        by_cases hb : hasPrefix name domain = true
        · simp only [if_neg (not_not_intro hb)]
          by_cases hl2 : (r.registeredIDs.lookup name).isSome = true
          · simp [if_pos hl2]
          · simp only [if_neg hl2]
            by_cases ha : (r.registeredIDs.any
                (fun p => levenshteinDistance name p.1 ≤ 3)) = true
            · simp [if_pos ha]
            · simp only [if_neg ha]
              cases hw : idWalk number
                  ((r.numberIndex.lookup (groupKey domain static)).getD [])
                  0 (-1) false none with
              | error p => simp [hw]
              | ok pr =>
                obtain ⟨ia, fi⟩ := pr
                simp only [hw]
                clear hw
                by_cases hfi : fi = false
                · simp only [if_pos hfi]
                  by_cases hn : number =
                      (match ia with
                        | none => 0
                        | some (_, node) => node.number + 1)
                  · rw [if_neg (by simp [hn]), if_neg (by simp [hn])]
                    refine ⟨rfl, rfl, ?_⟩
                    have hnum := insertNode_number_map
                      ((r.numberIndex.lookup (groupKey domain static)).getD []) ia
                      ⟨number, name,
                        (⟨name, domain, l, static, number, true⟩ : ErrorID).String⟩
                      ⟨number, name,
                        (⟨name, domain, l', static, number, true⟩ : ErrorID).String⟩
                      rfl
                    have hsg := setGroup_map_congr (groupKey domain static) _ _ hnum
                      r.numberIndex
                    simp only [Except.toOption, Option.map, List.map_cons]
                    exact congrArg some (Prod.ext (by simp) hsg)
                  · rw [if_pos (by simp [hn]), if_pos (by simp [hn])]
                    exact ⟨rfl, rfl, rfl⟩
                · simp only [if_neg hfi]
                  rw [if_neg (by simp : ¬ false = true), if_neg (by simp : ¬ false = true)]
                  refine ⟨rfl, rfl, ?_⟩
                  have hnum := insertNode_number_map
                    ((r.numberIndex.lookup (groupKey domain static)).getD []) ia
                    ⟨number, name,
                      (⟨name, domain, l, static, number, true⟩ : ErrorID).String⟩
                    ⟨number, name,
                      (⟨name, domain, l', static, number, true⟩ : ErrorID).String⟩
                    rfl
                  have hsg := setGroup_map_congr (groupKey domain static) _ _ hnum
                    r.numberIndex
                  simp only [Except.toOption, Option.map, List.map_cons]
                  exact congrArg some (Prod.ext (by simp) hsg)
        · have hb2 : hasPrefix name domain = false := by simpa using hb
          simp [hb2]
  · intro err id
    unfold Is
    cases h : goAs err with
    | some e => simp
    | none => simp

end Fail
